import Mathlib

/-!
Shallow embedding of `src/transutil.py` (class `File`: `_samefile`,
`copyfileobj`, `_copyxattr`, `copyfile`).

Paths are modelled as lists of components (`List String`); `os.path.join
(d, b)` is `d ++ [b]` and `os.path.basename p` is the last component.
The filesystem is an association list from paths to entries, together with
a counter supplying fresh inode numbers.  Writing prepends a binding, and
lookup returns the first binding, so the newest binding wins.

An entry is a regular file (inode, byte content, metadata), a directory,
a named pipe (FIFO), a symbolic link (with its target path), or a
`denied` marker: a path on which every `stat`/`open` system call fails
with the stored errno (modelling e.g. `EACCES`).  File type is carried by
the constructor rather than by the high bits of `st_mode`; `S_ISFIFO`
becomes a match on the `fifo` constructor and `S_IMODE` masks the stored
mode to its low 12 bits.

System calls that can raise `OSError` return `Res α`: either a value or
an errno.  The modelled platform is Linux-like: `os.path.samefile` and
`os.listxattr` exist, `os.stat`/`os.utime` support
`follow_symlinks=False` while `os.chmod` does not (so with
`follow = False` the `lookup` helper of `copyfile` resolves `chmod` to
the no-op `_nop`), and `st_flags`/`os.chflags` are present exactly when
the source metadata carries flags.
-/

/-- Errno values of the modelled platform (Linux numbering). -/
def EPERM : Nat := 1
def ENOENT : Nat := 2
def ENXIO : Nat := 6
def EACCES : Nat := 13
def EEXIST : Nat := 17
def EISDIR : Nat := 21
def EINVAL : Nat := 22
def ELOOP : Nat := 40
def ENODATA : Nat := 61
def ENOTSUP : Nat := 95

/-- Result of a system call: a value, or a raised `OSError` errno. -/
inductive Res (α : Type) where
  | ok (val : α)
  | err (eno : Nat)
deriving Repr, DecidableEq

/-- Metadata of a filesystem entry: timestamps (nanoseconds), the
permission part of `st_mode`, optional BSD-style `st_flags`, and extended
attributes as name/value pairs. -/
structure Meta where
  atime : Nat
  mtime : Nat
  mode : Nat
  flags : Option Nat
  xattrs : List (String × List Nat)
deriving Repr, DecidableEq

def defaultMeta : Meta := ⟨0, 0, 420, none, []⟩

/-- A filesystem entry.  `denied e` marks a path where `stat`/`open`
fail with errno `e`. -/
inductive Entry where
  | file (ino : Nat) (content : List Nat) (md : Meta)
  | dir (ino : Nat)
  | fifo (ino : Nat)
  | symlink (ino : Nat) (target : List String) (md : Meta)
  | denied (eno : Nat)
deriving Repr, DecidableEq

/-- `st_ino` of a stat result (never consulted on `denied`, whose stat
raises instead of returning). -/
def Entry.ino : Entry → Nat
  | .file i _ _ => i
  | .dir i => i
  | .fifo i => i
  | .symlink i _ _ => i
  | .denied _ => 0

/-- Metadata of a stat result.  Directories and FIFOs never reach the
metadata phase of `copyfile` (a directory source fails at `open` and a
FIFO source raises `SpecialFileError` first), so their metadata is not
modelled. -/
def Entry.emd : Entry → Meta
  | .file _ _ md => md
  | .symlink _ _ md => md
  | _ => defaultMeta

structure Fs where
  entries : List (List String × Entry)
  nextIno : Nat
deriving Repr, DecidableEq

def fsLookup (fs : Fs) (p : List String) : Option Entry :=
  match fs.entries.find? (fun kv => decide (kv.1 = p)) with
  | some kv => some kv.2
  | none => none

/-- Bind `p` to `e` (create or overwrite; the inode counter is
unchanged). -/
def fsSet (fs : Fs) (p : List String) (e : Entry) : Fs :=
  { entries := (p, e) :: fs.entries, nextIno := fs.nextIno }

/-- `os.path.basename` on a component list: the last component. -/
def basename (p : List String) : String := p.getLastD ""

/-- Symlink-resolution depth bound (Linux returns `ELOOP` past it). -/
def maxSymDepth : Nat := 40

/-- Follow symlinks starting at `p` and return the final entry, as
`stat` does: `ENOENT` on a missing path, the stored errno on a `denied`
path, `ELOOP` when the chain is too deep. -/
def resolveStat (fs : Fs) (p : List String) : Nat → Res Entry
  | 0 => .err ELOOP
  | fuel + 1 =>
    match fsLookup fs p with
    | none => .err ENOENT
    | some (.denied e) => .err e
    | some (.symlink _ t _) => resolveStat fs t fuel
    | some e => .ok e

/-- Follow symlinks starting at `p` and return the final path (which may
be unbound: `open(..., 'wb')` through a dangling symlink creates the file
at the link's target). -/
def resolvePath (fs : Fs) (p : List String) : Nat → Res (List String)
  | 0 => .err ELOOP
  | fuel + 1 =>
    match fsLookup fs p with
    | some (.denied e) => .err e
    | some (.symlink _ t _) => resolvePath fs t fuel
    | _ => .ok p

/-- `os.stat(p)` (follows symlinks). -/
def statOf (fs : Fs) (p : List String) : Res Entry := resolveStat fs p maxSymDepth

/-- `os.lstat(p)` / `os.stat(p, follow_symlinks=False)`. -/
def lstatOf (fs : Fs) (p : List String) : Res Entry :=
  match fsLookup fs p with
  | none => .err ENOENT
  | some (.denied e) => .err e
  | some e => .ok e

/-- `os.path.isdir` (stat-based; `False` when stat fails). -/
def isdir (fs : Fs) (p : List String) : Bool :=
  match statOf fs p with
  | .ok (.dir _) => true
  | _ => false

/-- `os.path.islink` (lstat-based; `False` when lstat fails). -/
def islink (fs : Fs) (p : List String) : Bool :=
  match fsLookup fs p with
  | some (.symlink _ _ _) => true
  | _ => false

/-- `os.readlink`. -/
def readlink (fs : Fs) (p : List String) : Res (List String) :=
  match fsLookup fs p with
  | none => .err ENOENT
  | some (.denied e) => .err e
  | some (.symlink _ t _) => .ok t
  | some _ => .err EINVAL

/-- Lines 82-91 of `copyfile`, for one member of
`[self.source_path, self.target_path]`: `os.stat(fn)` with every
`OSError` swallowed (`except OSError: pass`), then
`stat.S_ISFIFO(st.st_mode)` on a successful stat. -/
def statFifo (fs : Fs) (p : List String) : Bool :=
  match statOf fs p with
  | .ok (.fifo _) => true
  | _ => false

/-- `File._samefile` (lines 23-39).  `self.source_path` is a plain path
in this model, never an `os.DirEntry`, and `os.path.samefile` exists on
the modelled platform, so the embedded body is the `os.path.samefile`
branch: stat both paths and compare inodes, returning `False` when
either stat raises `OSError`; the pathname-comparison fallback of lines
37-39 is unreachable. -/
def samefile (fs : Fs) (src dst : List String) : Bool :=
  match statOf fs src, statOf fs dst with
  | .ok a, .ok b => a.ino == b.ino
  | _, _ => false

/-- Lines 77-78 of `copyfile`: if `dst` names an existing directory the
effective destination becomes `dst/basename(source)`. -/
def effDst (fs : Fs) (srcPath dstArg : List String) : List String :=
  if isdir fs dstArg then dstArg ++ [basename srcPath] else dstArg

/-- The `while 1` loop of `File.copyfileobj` (lines 44-48), on the
already-read byte stream: `buf = fsrc.read(length)`; stop when the
buffer is empty, else write it and continue with the rest of the
stream.  `fuel` only makes the recursion structural: every iteration
with a non-empty buffer consumes at least one byte, so starting from
`src.length + 1` the fuel is never exhausted. -/
def copyfileobjFuel (length : Nat) : Nat → List Nat → List Nat
  | 0, _ => []
  | fuel + 1, src =>
    let buf := src.take length
    if buf = [] then []
    else buf ++ copyfileobjFuel length fuel (src.drop length)

/-- `File.copyfileobj` (lines 41-48): copy the stream in `length`-byte
chunks; `length` defaults to `16 * 1024` at the call site (line 97). -/
def copyfileobj (length : Nat) (src : List Nat) : List Nat :=
  copyfileobjFuel length (src.length + 1) src

/-- `open(p, 'rb')` followed by reading the whole stream: resolve
symlinks, then return the real path (recorded as a content read) and the
file's bytes.  Python's `open` raises `IsADirectoryError` on a
directory; a FIFO here is unreachable (the FIFO check of lines 82-91 ran
first), modelled as `ENXIO`. -/
def openRead (fs : Fs) (p : List String) : Res (List String × List Nat) :=
  match resolvePath fs p maxSymDepth with
  | .err e => .err e
  | .ok rp =>
    match fsLookup fs rp with
    | none => .err ENOENT
    | some (.file _ c _) => .ok (rp, c)
    | some (.dir _) => .err EISDIR
    | some (.fifo _) => .err ENXIO
    | some (.symlink _ _ _) => .err ELOOP
    | some (.denied e) => .err e

/-- `open(p, 'wb')` followed by writing `bytes` and closing: resolve
symlinks, then truncate-and-write an existing regular file (keeping its
inode and metadata) or create a fresh file with a fresh inode and
default metadata.  Opening a directory for writing raises `EISDIR`. -/
def writeAll (fs : Fs) (p : List String) (bytes : List Nat) : Res Fs :=
  match resolvePath fs p maxSymDepth with
  | .err e => .err e
  | .ok rp =>
    match fsLookup fs rp with
    | none => .ok { entries := (rp, .file fs.nextIno bytes defaultMeta) :: fs.entries,
                    nextIno := fs.nextIno + 1 }
    | some (.file i _ md) => .ok (fsSet fs rp (.file i bytes md))
    | some (.dir _) => .err EISDIR
    | some (.fifo _) => .err ENXIO
    | some (.symlink _ _ _) => .err ELOOP
    | some (.denied e) => .err e

/-- `os.symlink(target, linkpath)`: fails with `EEXIST` when `linkpath`
is already bound (lstat semantics), else creates the link with a fresh
inode. -/
def symlinkCreate (fs : Fs) (target linkpath : List String) : Res Fs :=
  match fsLookup fs linkpath with
  | some _ => .err EEXIST
  | none => .ok { entries := (linkpath, .symlink fs.nextIno target defaultMeta) :: fs.entries,
                  nextIno := fs.nextIno + 1 }

/-- Errnos tolerated when `os.listxattr` fails (line 60). -/
def xattrListTolerated : List Nat := [ENOTSUP, ENODATA, EINVAL]

/-- Errnos tolerated when `os.getxattr`/`os.setxattr` fail on a single
attribute (lines 68-69). -/
def xattrSetTolerated : List Nat := [EPERM, ENOTSUP, ENODATA, EINVAL]

/-- The `for name in names` loop of `File._copyxattr` (lines 63-70),
with the OS responses passed in: `getRes name` is `os.getxattr`'s
answer and `setErr name value` is `none` when `os.setxattr` succeeds,
`some e` when it raises errno `e`.  Returns the name/value pairs
actually set on the destination, in order, or the first propagated
errno. -/
def copyxattrLoop (getRes : String → Res (List Nat))
    (setErr : String → List Nat → Option Nat) :
    List String → Res (List (String × List Nat))
  | [] => .ok []
  | name :: rest =>
    match getRes name with
    | .err e =>
      if e ∈ xattrSetTolerated then copyxattrLoop getRes setErr rest
      else .err e
    | .ok value =>
      match setErr name value with
      | some e =>
        if e ∈ xattrSetTolerated then copyxattrLoop getRes setErr rest
        else .err e
      | none =>
        match copyxattrLoop getRes setErr rest with
        | .ok pairs => .ok ((name, value) :: pairs)
        | .err e => .err e

/-- `File._copyxattr` (lines 50-73) on the modelled platform (which has
`os.listxattr`), with the OS responses passed in: `listRes` is
`os.listxattr`'s answer.  A listing failure with a tolerated errno
yields zero copied attributes and no error (lines 59-62). -/
def copyxattr (listRes : Res (List String))
    (getRes : String → Res (List Nat))
    (setErr : String → List Nat → Option Nat) :
    Res (List (String × List Nat)) :=
  match listRes with
  | .err e => if e ∈ xattrListTolerated then .ok [] else .err e
  | .ok names => copyxattrLoop getRes setErr names

/-- Line 105 of `copyfile`: follow symlinks for the metadata operations
(aka do not not follow). -/
def followForMeta (follow_symlinks islinkSrc islinkDst : Bool) : Bool :=
  follow_symlinks || !(islinkSrc && islinkDst)

/-- `stat.S_IMODE`: the permission part of `st_mode`. -/
def S_IMODE (m : Nat) : Nat := m % 4096

/-- Replace the permission bits of a full mode with `perm` (what `chmod`
does). -/
def withPermBits (m perm : Nat) : Nat := m - m % 4096 + perm

/-- Set one extended attribute, overwriting an existing value. -/
def setXattrList (xs : List (String × List Nat)) (name : String) (value : List Nat) :
    List (String × List Nat) :=
  if xs.any (fun kv => kv.1 == name) then
    xs.map (fun kv => if kv.1 == name then (name, value) else kv)
  else xs ++ [(name, value)]

/-- Update the metadata of the entry at `p` (resolving symlinks first
when `follow` is true, as the real calls do). -/
def updateMetaAt (fs : Fs) (p : List String) (follow : Bool) (g : Meta → Meta) : Res Fs :=
  match (if follow then resolvePath fs p maxSymDepth else .ok p) with
  | .err e => .err e
  | .ok rp =>
    match fsLookup fs rp with
    | none => .err ENOENT
    | some (.file i c md) => .ok (fsSet fs rp (.file i c (g md)))
    | some (.symlink i t md) => .ok (fsSet fs rp (.symlink i t (g md)))
    | some (.dir _) => .ok fs
    | some (.fifo _) => .ok fs
    | some (.denied e) => .err e

/-- Lines 99-136 of `copyfile` after the `follow` flag has been fixed:
stat the source (lstat when not following), apply its timestamps with
`utime`, copy extended attributes via `_copyxattr` (here with the
filesystem-backed responses, which all succeed), then `chmod` — a no-op
when `follow` is false, since `os.chmod` does not support
`follow_symlinks=False` on the modelled platform — and `chflags` when
the source stat carries `st_flags`. -/
def metaPhase (fs : Fs) (src dst : List String) (follow : Bool) : Res Fs :=
  match (if follow then statOf fs src else lstatOf fs src) with
  | .err e => .err e
  | .ok st =>
    let md := st.emd
    let mode := S_IMODE md.mode
    match updateMetaAt fs dst follow (fun m => { m with atime := md.atime, mtime := md.mtime }) with
    | .err e => .err e
    | .ok fs1 =>
      match copyxattr (.ok (md.xattrs.map (fun kv => kv.1)))
          (fun n => match md.xattrs.lookup n with
                    | some v => .ok v
                    | none => .err ENODATA)
          (fun _ _ => none) with
      | .err e => .err e
      | .ok pairs =>
        match updateMetaAt fs1 dst follow
            (fun m => { m with xattrs := pairs.foldl (fun xs nv => setXattrList xs nv.1 nv.2) m.xattrs }) with
        | .err e => .err e
        | .ok fs2 =>
          match (if follow then
                   updateMetaAt fs2 dst follow (fun m => { m with mode := withPermBits m.mode mode })
                 else .ok fs2) with
          | .err e => .err e
          | .ok fs3 =>
            match md.flags with
            | none => .ok fs3
            | some fl => updateMetaAt fs3 dst follow (fun m => { m with flags := some fl })

/-- The `File` object: constructed with a source path; `target_path`
starts as `None` and is mutated by `copyfile`. -/
structure File where
  source_path : List String
  target_path : Option (List String)
deriving Repr, DecidableEq

/-- The exceptions `copyfile` can raise: `SameFileError` (line 81),
`SpecialFileError` (line 91), or an `OSError` with an errno from a
system call. -/
inductive CopyErr where
  | sameFileError
  | specialFileError
  | osError (eno : Nat)
deriving Repr, DecidableEq

/-- What `copyfile` returns or raises. -/
inductive CopyResult where
  | ok (path : List String)
  | err (e : CopyErr)
deriving Repr, DecidableEq

/-- The observable outcome of one `copyfile` call: the `File` object
afterwards, the filesystem afterwards, the returned path or raised
exception, and the paths whose content was read. -/
structure Outcome where
  file : File
  fs : Fs
  result : CopyResult
  readPaths : List (List String)
deriving Repr, DecidableEq

/-- Lines 99-137 and 138: run the metadata phase when `copy_meta` is
set, then return `dst` (the effective destination). -/
def finishMeta (f : File) (fs2 : Fs) (src dst : List String)
    (reads : List (List String)) (copy_meta follow_symlinks : Bool) : Outcome :=
  if copy_meta then
    let follow := followForMeta follow_symlinks (islink fs2 src) (islink fs2 dst)
    match metaPhase fs2 src dst follow with
    | .err e => ⟨f, fs2, .err (.osError e), reads⟩
    | .ok fs3 => ⟨f, fs3, .ok dst, reads⟩
  else ⟨f, fs2, .ok dst, reads⟩

/-- `File.copyfile` (lines 75-138), step by step:
line 76 sets `self.target_path = dst` before anything else;
lines 77-78 redirect a directory destination to `dst/basename(source)`;
lines 80-81 raise `SameFileError` on `self._samefile(dst)`;
lines 82-91 stat `self.source_path` and `self.target_path` (the raw
destination argument, not the effective `dst`), swallowing `OSError`,
and raise `SpecialFileError` when a successful stat shows a FIFO;
lines 92-93 recreate a symlink source at `self.target_path` when
`follow_symlinks` is false;
lines 94-97 otherwise open `self.source_path` for reading and
`self.target_path` (again the raw argument) for writing and copy the
stream with `copyfileobj` in 16 KiB chunks;
lines 99-137 copy metadata when `copy_meta` is set; line 138 returns
`dst`. -/
def copyfile (fs : Fs) (f0 : File) (dstArg : List String)
    (copy_meta follow_symlinks : Bool) : Outcome :=
  let f : File := { f0 with target_path := some dstArg }
  let dst := effDst fs f.source_path dstArg
  if samefile fs f.source_path dst then
    ⟨f, fs, .err .sameFileError, []⟩
  else if statFifo fs f.source_path then
    ⟨f, fs, .err .specialFileError, []⟩
  else if statFifo fs dstArg then
    ⟨f, fs, .err .specialFileError, []⟩
  else if !follow_symlinks && islink fs f.source_path then
    match readlink fs f.source_path with
    | .err e => ⟨f, fs, .err (.osError e), []⟩
    | .ok t =>
      match symlinkCreate fs t dstArg with
      | .err e => ⟨f, fs, .err (.osError e), []⟩
      | .ok fs2 => finishMeta f fs2 f.source_path dst [] copy_meta follow_symlinks
  else
    match openRead fs f.source_path with
    | .err e => ⟨f, fs, .err (.osError e), []⟩
    | .ok (rp, content) =>
      match writeAll fs dstArg (copyfileobj (16 * 1024) content) with
      | .err e => ⟨f, fs, .err (.osError e), []⟩
      | .ok fs2 => finishMeta f fs2 f.source_path dst [rp] copy_meta follow_symlinks

/-! ### Concrete filesystems used by witnesses and counterexamples -/

/-- A regular file `a.txt` plus an existing directory `d` (with nothing
under it). -/
def fsDirDest : Fs :=
  ⟨[(["a.txt"], .file 1 [10, 20, 30] defaultMeta), (["d"], .dir 2)], 100⟩

/-- A regular file `s`, a directory `d`, and a FIFO at `d/s` — the
effective destination of copying `s` into `d`. -/
def fsFifoBehindDir : Fs :=
  ⟨[(["s"], .file 1 [7] defaultMeta), (["d"], .dir 2), (["d", "s"], .fifo 3)], 100⟩

/-- Two distinct regular files `a` (empty) and `b`. -/
def fsTwoFiles : Fs :=
  ⟨[(["a"], .file 1 [] defaultMeta), (["b"], .file 2 [9, 9] defaultMeta)], 100⟩

/-- A FIFO `p` and a regular file `b`. -/
def fsFifoSrc : Fs :=
  ⟨[(["p"], .fifo 1), (["b"], .file 2 [9] defaultMeta)], 100⟩

/-- A symlink `l` to a regular file `t`; path `n` is unbound. -/
def fsLinkSrc : Fs :=
  ⟨[(["l"], .symlink 1 ["t"] defaultMeta), (["t"], .file 2 [5, 6] defaultMeta)], 100⟩

/-- Demo `os.getxattr` responses: every attribute reads successfully. -/
def xattrGetDemo : String → Res (List Nat) :=
  fun n => if n = "user.a" then .ok [1] else .ok [2]

/-- Demo `os.setxattr` responses: setting `user.b` fails with `EPERM`
(tolerated), everything else succeeds. -/
def xattrSetDemo : String → List Nat → Option Nat :=
  fun n _ => if n = "user.b" then some EPERM else none

/-- Demo `os.setxattr` responses: every set fails with `EACCES` (not
tolerated). -/
def xattrSetDenied : String → List Nat → Option Nat :=
  fun _ _ => some EACCES

/-! ### Helper lemmas -/

theorem resolveStat_lookup_file (fs : Fs) (p : List String) (i : Nat) (c : List Nat)
    (m : Meta) (n : Nat) (h : fsLookup fs p = some (.file i c m)) :
    resolveStat fs p (n + 1) = .ok (.file i c m) := by
  simp [resolveStat, h]

theorem resolveStat_lookup_fifo (fs : Fs) (p : List String) (i : Nat) (n : Nat)
    (h : fsLookup fs p = some (.fifo i)) :
    resolveStat fs p (n + 1) = .ok (.fifo i) := by
  simp [resolveStat, h]

theorem resolveStat_lookup_none (fs : Fs) (p : List String) (n : Nat)
    (h : fsLookup fs p = none) :
    resolveStat fs p (n + 1) = .err ENOENT := by
  simp [resolveStat, h]

theorem statOf_file (fs : Fs) (p : List String) (i : Nat) (c : List Nat) (m : Meta)
    (h : fsLookup fs p = some (.file i c m)) :
    statOf fs p = .ok (.file i c m) :=
  resolveStat_lookup_file fs p i c m 39 h

theorem statOf_fifo (fs : Fs) (p : List String) (i : Nat)
    (h : fsLookup fs p = some (.fifo i)) :
    statOf fs p = .ok (.fifo i) :=
  resolveStat_lookup_fifo fs p i 39 h

theorem statOf_none (fs : Fs) (p : List String) (h : fsLookup fs p = none) :
    statOf fs p = .err ENOENT :=
  resolveStat_lookup_none fs p 39 h

theorem resolvePath_lookup_file (fs : Fs) (p : List String) (i : Nat) (c : List Nat)
    (m : Meta) (n : Nat) (h : fsLookup fs p = some (.file i c m)) :
    resolvePath fs p (n + 1) = .ok p := by
  simp [resolvePath, h]

theorem resolvePathAt_file (fs : Fs) (p : List String) (i : Nat) (c : List Nat) (m : Meta)
    (h : fsLookup fs p = some (.file i c m)) :
    resolvePath fs p maxSymDepth = .ok p :=
  resolvePath_lookup_file fs p i c m 39 h

theorem fsLookup_cons (l : List (List String × Entry)) (k : Nat) (p : List String)
    (e : Entry) (q : List String) :
    fsLookup ⟨(p, e) :: l, k⟩ q = if p = q then some e else fsLookup ⟨l, k⟩ q := by
  by_cases h : p = q <;> simp [fsLookup, List.find?_cons, h]

theorem fsLookup_fsSet_self (fs : Fs) (p : List String) (e : Entry) :
    fsLookup (fsSet fs p e) p = some e := by
  simp [fsSet, fsLookup_cons]

theorem copyfileobjFuel_id (length : Nat) (hl : 0 < length) :
    ∀ fuel src, src.length < fuel → copyfileobjFuel length fuel src = src := by
  intro fuel
  induction fuel with
  | zero => intro src h; omega
  | succ n ih =>
    intro src h
    by_cases hb : src.take length = []
    · have hsrc : src = [] := by
        rcases List.take_eq_nil_iff.mp hb with h1 | h1
        · omega
        · exact h1
      simp [copyfileobjFuel, hb, hsrc]
    · have hsrc : src ≠ [] := by
        intro hs; exact hb (by simp [hs])
      have hlen : 0 < src.length := List.length_pos.mpr hsrc
      have hdrop : (src.drop length).length < n := by
        simp only [List.length_drop]
        omega
      calc copyfileobjFuel length (n + 1) src
          = src.take length ++ copyfileobjFuel length n (src.drop length) := by
            simp [copyfileobjFuel, hb]
        _ = src.take length ++ src.drop length := by rw [ih _ hdrop]
        _ = src := List.take_append_drop length src

theorem copyfileobj_id (length : Nat) (hl : 0 < length) (src : List Nat) :
    copyfileobj length src = src :=
  copyfileobjFuel_id length hl (src.length + 1) src (Nat.lt_succ_self _)

/-! ### Claim theorems -/

/-- **C1** (code_bug evidence).  The spec says `copy(A, dir)` with `dir`
an existing directory writes `dir/basename(A)` with `A`'s content and
returns that path.  Line 78 computes that effective destination and
line 138 returns it, but line 96 opens `self.target_path` — the raw
directory — for writing, so the call raises `IsADirectoryError`
(`EISDIR`) and `dir/basename(A)` is never created. -/
theorem c1_directory_destination_eisdir :
    (copyfile fsDirDest ⟨["a.txt"], none⟩ ["d"] false true).result
        = .err (.osError EISDIR) ∧
    fsLookup (copyfile fsDirDest ⟨["a.txt"], none⟩ ["d"] false true).fs
        ["d", "a.txt"] = none := by
  decide

/-- **C2**.  For distinct regular files `A` and `B` (different inodes,
`follow_symlinks` true), `copyfile` returns `B`, leaves at `B` a regular
file whose bytes are exactly `A`'s bytes (same inode and metadata as the
old `B`), and the 16 KiB-chunked transfer reproduces the source stream
exactly — in particular a 0-byte source yields a 0-byte destination. -/
theorem c2_copy_makes_destination_equal (fs : Fs) (f : File) (B : List String)
    (iA iB : Nat) (cA cB : List Nat) (mA mB : Meta)
    (hA : fsLookup fs f.source_path = some (.file iA cA mA))
    (hB : fsLookup fs B = some (.file iB cB mB))
    (hne : iA ≠ iB) :
    (copyfile fs f B false true).result = .ok B ∧
    fsLookup (copyfile fs f B false true).fs B = some (.file iB cA mB) ∧
    copyfileobj (16 * 1024) cA = cA := by
  have hsA : statOf fs f.source_path = .ok (.file iA cA mA) := statOf_file _ _ _ _ _ hA
  have hsB : statOf fs B = .ok (.file iB cB mB) := statOf_file _ _ _ _ _ hB
  have hdir : isdir fs B = false := by simp [isdir, hsB]
  have heff : effDst fs f.source_path B = B := by simp [effDst, hdir]
  have hsame : samefile fs f.source_path B = false := by
    simp [samefile, hsA, hsB, Entry.ino]
    exact hne
  have hf1 : statFifo fs f.source_path = false := by simp [statFifo, hsA]
  have hf2 : statFifo fs B = false := by simp [statFifo, hsB]
  have hco : copyfileobj (16 * 1024) cA = cA := copyfileobj_id _ (by norm_num) cA
  have hopen : openRead fs f.source_path = .ok (f.source_path, cA) := by
    have hr := resolvePathAt_file fs f.source_path iA cA mA hA
    simp [openRead, hr, hA]
  have hw : writeAll fs B (copyfileobj (16 * 1024) cA)
      = .ok (fsSet fs B (.file iB cA mB)) := by
    have hr := resolvePathAt_file fs B iB cB mB hB
    simp [writeAll, hr, hB, hco]
  refine ⟨?_, ?_, hco⟩ <;>
    simp [copyfile, heff, hsame, hf1, hf2, hopen, hw, finishMeta, fsLookup_fsSet_self]

/-- Witness for C2 at a concrete input, with a 0-byte source: copying
the empty file `a` over `b` succeeds and leaves `b` empty. -/
theorem c2_witness_zero_byte :
    (copyfile fsTwoFiles ⟨["a"], none⟩ ["b"] false true).result = .ok ["b"] ∧
    fsLookup (copyfile fsTwoFiles ⟨["a"], none⟩ ["b"] false true).fs ["b"]
        = some (.file 2 [] defaultMeta) ∧
    copyfileobj (16 * 1024) [] = [] :=
  c2_copy_makes_destination_equal fsTwoFiles ⟨["a"], none⟩ ["b"] 1 2 [] [9, 9]
    defaultMeta defaultMeta (by decide) (by decide) (by decide)

/-- **C3**.  When source and destination are the same path `A` and `A`
stats successfully to a non-directory entry, `copyfile` raises
`SameFileError` with the filesystem untouched (the check precedes any
write) and nothing read. -/
theorem c3_samefile_raises (fs : Fs) (A : List String) (tp : Option (List String))
    (cm fsym : Bool) (e : Entry)
    (hstat : statOf fs A = .ok e)
    (hnd : ∀ i, e ≠ .dir i) :
    copyfile fs ⟨A, tp⟩ A cm fsym = ⟨⟨A, some A⟩, fs, .err .sameFileError, []⟩ := by
  have hdir : isdir fs A = false := by
    cases e <;> simp_all [isdir]
  have heff : effDst fs A A = A := by simp [effDst, hdir]
  have hsame : samefile fs A A = true := by simp [samefile, hstat]
  simp [copyfile, heff, hsame]

/-- Witness for C3: copying `b` onto itself raises `SameFileError` and
changes nothing. -/
theorem c3_witness :
    copyfile fsTwoFiles ⟨["b"], none⟩ ["b"] false true
      = ⟨⟨["b"], some ["b"]⟩, fsTwoFiles, .err .sameFileError, []⟩ :=
  c3_samefile_raises fsTwoFiles ["b"] none false true (.file 2 [9, 9] defaultMeta)
    (by decide) (fun i h => Entry.noConfusion h)

/-- **C10**.  Line 76 stores the raw destination argument into
`self.target_path` before any validation, so the `File` object after
any `copyfile` call — including the `SameFileError` / `SpecialFileError`
failures — carries `target_path = dstArg` regardless of its previous
value. -/
theorem c10_target_path_mutated_upfront (fs : Fs) (f : File) (dstArg : List String)
    (cm fsym : Bool) :
    (copyfile fs f dstArg cm fsym).file = { f with target_path := some dstArg } := by
  have hfin : ∀ fs2 src dst reads,
      (finishMeta { f with target_path := some dstArg } fs2 src dst reads cm fsym).file
        = { f with target_path := some dstArg } := by
    intro fs2 src dst reads
    cases cm
    · simp [finishMeta]
    · cases hm : metaPhase fs2 src dst
          (followForMeta fsym (islink fs2 src) (islink fs2 dst)) <;>
        simp [finishMeta, hm]
  by_cases h1 : samefile fs f.source_path (effDst fs f.source_path dstArg) = true
  · simp [copyfile, h1]
  by_cases h2 : statFifo fs f.source_path = true
  · simp [copyfile, h1, h2]
  by_cases h3 : statFifo fs dstArg = true
  · simp [copyfile, h1, h2, h3]
  by_cases h4 : (!fsym && islink fs f.source_path) = true
  · cases hr : readlink fs f.source_path with
    | err e => simp [copyfile, h1, h2, h3, h4, hr]
    | ok t =>
      cases hs : symlinkCreate fs t dstArg with
      | err e => simp [copyfile, h1, h2, h3, h4, hr, hs]
      | ok fs2 => simp [copyfile, h1, h2, h3, h4, hr, hs, hfin]
  · cases ho : openRead fs f.source_path with
    | err e => simp [copyfile, h1, h2, h3, h4, ho]
    | ok pr =>
      obtain ⟨rp, content⟩ := pr
      cases hw : writeAll fs dstArg (copyfileobj (16 * 1024) content) with
      | err e => simp [copyfile, h1, h2, h3, h4, ho, hw]
      | ok fs2 => simp [copyfile, h1, h2, h3, h4, ho, hw, hfin]

/-- **C8**.  The metadata phase follows symlinks exactly when the caller
asked to follow, or when not both the source and the effective
destination are themselves symlinks — i.e. following is skipped only
when both endpoints are symlinks and `follow_symlinks` is false. -/
theorem c8_follow_for_meta_iff (fs2 : Fs) (src dst : List String) (fsym : Bool) :
    followForMeta fsym (islink fs2 src) (islink fs2 dst) = true ↔
      (fsym = true ∨ ¬(islink fs2 src = true ∧ islink fs2 dst = true)) := by
  cases fsym <;> cases h1 : islink fs2 src <;> cases h2 : islink fs2 dst <;>
    simp [followForMeta]

/-- **C4**.  When the source stats to a FIFO and the same-file check does
not fire first, `copyfile` raises `SpecialFileError` with the filesystem
untouched — the destination is neither created nor modified — and
nothing read. -/
theorem c4_fifo_source_special (fs : Fs) (A : List String) (tp : Option (List String))
    (B : List String) (cm fsym : Bool)
    (hfifo : statFifo fs A = true)
    (hsame : samefile fs A (effDst fs A B) = false) :
    copyfile fs ⟨A, tp⟩ B cm fsym = ⟨⟨A, some B⟩, fs, .err .specialFileError, []⟩ := by
  simp [copyfile, hsame, hfifo]

/-- Witness for C4: copying the FIFO `p` to `b` raises
`SpecialFileError` and leaves the filesystem unchanged. -/
theorem c4_witness :
    copyfile fsFifoSrc ⟨["p"], none⟩ ["b"] false true
      = ⟨⟨["p"], some ["b"]⟩, fsFifoSrc, .err .specialFileError, []⟩ :=
  c4_fifo_source_special fsFifoSrc ["p"] none ["b"] false true (by decide) (by decide)

/-- **C5**.  With `follow_symlinks` false and a symlink source (whose
stat target is not a FIFO), copying to an unbound destination path
recreates a symlink there with the source's link target, returns the
destination, and never reads any content (the link target is not
dereferenced). -/
theorem c5_symlink_recreated (fs : Fs) (A t : List String) (tp : Option (List String))
    (i : Nat) (md : Meta) (B : List String)
    (hA : fsLookup fs A = some (.symlink i t md))
    (hnf : statFifo fs A = false)
    (hB : fsLookup fs B = none) :
    copyfile fs ⟨A, tp⟩ B false false =
      ⟨⟨A, some B⟩,
       ⟨(B, .symlink fs.nextIno t defaultMeta) :: fs.entries, fs.nextIno + 1⟩,
       .ok B, []⟩ := by
  have hsB : statOf fs B = .err ENOENT := statOf_none fs B hB
  have hdir : isdir fs B = false := by simp [isdir, hsB]
  have heff : effDst fs A B = B := by simp [effDst, hdir]
  have hsame : samefile fs A B = false := by
    cases hsA : statOf fs A <;> simp [samefile, hsA, hsB]
  have hfB : statFifo fs B = false := by simp [statFifo, hsB]
  have hlink : islink fs A = true := by simp [islink, hA]
  have hrl : readlink fs A = .ok t := by simp [readlink, hA]
  have hsc : symlinkCreate fs t B
      = .ok ⟨(B, .symlink fs.nextIno t defaultMeta) :: fs.entries, fs.nextIno + 1⟩ := by
    simp [symlinkCreate, hB]
  simp [copyfile, heff, hsame, hnf, hfB, hlink, hrl, hsc, finishMeta]

/-- Witness for C5: `l` is a symlink to `t`; the copy with
`follow_symlinks=False` creates a fresh symlink at `n` pointing to `t`
and reads no content. -/
theorem c5_witness :
    copyfile fsLinkSrc ⟨["l"], none⟩ ["n"] false false =
      ⟨⟨["l"], some ["n"]⟩,
       ⟨(["n"], .symlink 100 ["t"] defaultMeta) :: fsLinkSrc.entries, 101⟩,
       .ok ["n"], []⟩ :=
  c5_symlink_recreated fsLinkSrc ["l"] ["t"] none 1 defaultMeta ["n"]
    (by decide) (by decide) (by decide)

/-- **C6** (counterexample).  The claim says the special-file check
stats the *effective* destination.  Here the destination `d` is a
directory and the effective destination `d/s` is a FIFO — which stats to
a FIFO — yet `copyfile` does not raise `SpecialFileError`: lines 82-91
stat `self.target_path` (the raw argument `d`), and the call instead
dies at line 96 with `EISDIR`. -/
theorem c6_counterexample_fifo_at_effective_dst :
    isdir fsFifoBehindDir ["d"] = true ∧
    effDst fsFifoBehindDir ["s"] ["d"] = ["d", "s"] ∧
    statFifo fsFifoBehindDir (effDst fsFifoBehindDir ["s"] ["d"]) = true ∧
    (copyfile fsFifoBehindDir ⟨["s"], none⟩ ["d"] false true).result
        = .err (.osError EISDIR) ∧
    (copyfile fsFifoBehindDir ⟨["s"], none⟩ ["d"] false true).result
        ≠ .err .specialFileError := by
  decide

/-- **C6** (amended).  The special-file check stats the source and the
*raw* destination argument (`self.target_path`, before directory
resolution), swallowing stat failures on either; when the same-file
check does not fire first and either of those two stats shows a FIFO,
`copyfile` raises `SpecialFileError` with the filesystem untouched. -/
theorem c6_amended_raw_destination_check (fs : Fs) (A : List String)
    (tp : Option (List String)) (B : List String) (cm fsym : Bool)
    (hsame : samefile fs A (effDst fs A B) = false)
    (hfifo : statFifo fs A = true ∨ statFifo fs B = true) :
    copyfile fs ⟨A, tp⟩ B cm fsym = ⟨⟨A, some B⟩, fs, .err .specialFileError, []⟩ := by
  by_cases h2 : statFifo fs A = true
  · simp [copyfile, hsame, h2]
  · have h3 : statFifo fs B = true := hfifo.resolve_left h2
    simp [copyfile, hsame, h2, h3]

/-- Witness for the amended C6: the raw destination `p` is a FIFO, so
copying `b` to it raises `SpecialFileError` and changes nothing. -/
theorem c6_witness :
    copyfile fsFifoSrc ⟨["b"], none⟩ ["p"] false true
      = ⟨⟨["b"], some ["p"]⟩, fsFifoSrc, .err .specialFileError, []⟩ :=
  c6_amended_raw_destination_check fsFifoSrc ["b"] none ["p"] false true (by decide)
    (Or.inr (by decide))

theorem copyxattrLoop_all_tolerated (g : String → Res (List Nat))
    (s : String → List Nat → Option Nat) (names : List String)
    (hg : ∀ n ∈ names, ∀ e, g n ≠ .err e)
    (hs : ∀ n ∈ names, ∀ v e, s n v = some e → e ∈ xattrSetTolerated) :
    copyxattrLoop g s names = .ok (names.filterMap fun n =>
      match g n with
      | .ok v => (match s n v with | none => some (n, v) | some _ => none)
      | .err _ => none) := by
  revert hg hs
  induction names with
  | nil => intro _ _; simp [copyxattrLoop]
  | cons n rest ih =>
    intro hg hs
    obtain ⟨v, hv⟩ : ∃ v, g n = .ok v := by
      cases hgv : g n with
      | ok v => exact ⟨v, rfl⟩
      | err e => exact absurd hgv (hg n (List.mem_cons_self n rest) e)
    have hrec := ih (fun m hm => hg m (List.mem_cons_of_mem n hm))
        (fun m hm => hs m (List.mem_cons_of_mem n hm))
    cases hsv : s n v with
    | none => simp [copyxattrLoop, hv, hsv, hrec, List.filterMap_cons]
    | some e =>
      have he : e ∈ xattrSetTolerated := hs n (List.mem_cons_self n rest) v e hsv
      simp [copyxattrLoop, hv, hsv, he, hrec, List.filterMap_cons]

/-- **C7**.  The error policy of `_copyxattr`:
(1) a listing failure with a tolerated errno (`ENOTSUP`/`ENODATA`/
`EINVAL`) yields zero copied attributes and no error;
(2) a listing failure with any other errno propagates;
(3) when every attribute reads back and every set failure carries a
tolerated errno (`EPERM`/`ENOTSUP`/`ENODATA`/`EINVAL`), the loop
finishes without error, copying exactly the attributes whose set
succeeded — failing ones are skipped, the rest still copied;
(4) a set failure with any other errno propagates. -/
theorem c7_copyxattr_error_policy :
    (∀ (g : String → Res (List Nat)) (s : String → List Nat → Option Nat)
        (e : Nat), e ∈ xattrListTolerated → copyxattr (.err e) g s = .ok []) ∧
    (∀ (g : String → Res (List Nat)) (s : String → List Nat → Option Nat)
        (e : Nat), e ∉ xattrListTolerated → copyxattr (.err e) g s = .err e) ∧
    (∀ (g : String → Res (List Nat)) (s : String → List Nat → Option Nat)
        (names : List String),
        (∀ n ∈ names, ∀ e, g n ≠ .err e) →
        (∀ n ∈ names, ∀ v e, s n v = some e → e ∈ xattrSetTolerated) →
        copyxattr (.ok names) g s =
          .ok (names.filterMap fun n =>
            match g n with
            | .ok v => (match s n v with | none => some (n, v) | some _ => none)
            | .err _ => none)) ∧
    (∀ (g : String → Res (List Nat)) (s : String → List Nat → Option Nat)
        (n : String) (rest : List String) (v : List Nat) (e : Nat),
        g n = .ok v → s n v = some e → e ∉ xattrSetTolerated →
        copyxattr (.ok (n :: rest)) g s = .err e) := by
  refine ⟨?_, ?_, ?_, ?_⟩
  · intro g s e he
    simp [copyxattr, he]
  · intro g s e he
    simp [copyxattr, he]
  · intro g s names hg hs
    simpa [copyxattr] using copyxattrLoop_all_tolerated g s names hg hs
  · intro g s n rest v e hv hsv he
    simp [copyxattr, copyxattrLoop, hv, hsv, he]

/-- Witness for C7: each of the four parts at concrete inputs —
tolerated listing failure gives zero attributes, `EACCES` on listing
propagates, a tolerated per-attribute failure skips `user.b` while
`user.a` is still copied, and `EACCES` on setting propagates. -/
theorem c7_witness :
    copyxattr (.err ENOTSUP) xattrGetDemo xattrSetDemo = .ok [] ∧
    copyxattr (.err EACCES) xattrGetDemo xattrSetDemo = .err EACCES ∧
    copyxattr (.ok ["user.a", "user.b"]) xattrGetDemo xattrSetDemo
        = .ok [("user.a", [1])] ∧
    copyxattr (.ok ["user.a"]) xattrGetDemo xattrSetDenied = .err EACCES := by
  have hg : ∀ n ∈ ["user.a", "user.b"], ∀ e, xattrGetDemo n ≠ .err e := by
    intro n hn e
    fin_cases hn <;> simp [xattrGetDemo]
  have hs : ∀ n ∈ ["user.a", "user.b"], ∀ v e,
      xattrSetDemo n v = some e → e ∈ xattrSetTolerated := by
    intro n hn v e hx
    fin_cases hn
    · simp [xattrSetDemo] at hx
    · simp [xattrSetDemo] at hx
      simp [← hx]
      decide
  refine ⟨c7_copyxattr_error_policy.1 xattrGetDemo xattrSetDemo ENOTSUP (by decide),
          c7_copyxattr_error_policy.2.1 xattrGetDemo xattrSetDemo EACCES (by decide),
          ?_,
          c7_copyxattr_error_policy.2.2.2 xattrGetDemo xattrSetDenied "user.a" [] [1]
            EACCES (by decide) (by decide) (by decide)⟩
  rw [c7_copyxattr_error_policy.2.2.1 xattrGetDemo xattrSetDemo ["user.a", "user.b"] hg hs]
  decide

theorem writeAll_preserves_meta (fs fs2 : Fs) (p : List String) (bytes : List Nat)
    (hw : writeAll fs p bytes = .ok fs2) :
    ∀ q e, fsLookup fs q = some e → ∃ e2, fsLookup fs2 q = some e2 ∧ e2.emd = e.emd := by
  intro q e hq
  unfold writeAll at hw
  cases hr : resolvePath fs p maxSymDepth with
  | err e0 => rw [hr] at hw; simp at hw
  | ok rp =>
    rw [hr] at hw
    dsimp only at hw
    cases hl : fsLookup fs rp with
    | none =>
      rw [hl] at hw
      simp at hw
      by_cases hqp : rp = q
      · rw [← hqp] at hq; rw [hq] at hl; cases hl
      · refine ⟨e, ?_, rfl⟩
        rw [← hw, fsLookup_cons, if_neg hqp]
        exact hq
    | some le =>
      rw [hl] at hw
      cases le with
      | file i c md =>
        simp at hw
        by_cases hqp : rp = q
        · subst hqp
          rw [hq] at hl
          injection hl with hl
          refine ⟨.file i bytes md, ?_, ?_⟩
          · rw [← hw]
            exact fsLookup_fsSet_self fs rp (.file i bytes md)
          · rw [hl]
            rfl
        · refine ⟨e, ?_, rfl⟩
          rw [← hw]
          show fsLookup (fsSet fs rp (.file i bytes md)) q = some e
          rw [fsSet, fsLookup_cons, if_neg hqp]
          exact hq
      | dir i => simp at hw
      | fifo i => simp at hw
      | symlink i t md => simp at hw
      | denied e0 => simp at hw

theorem symlinkCreate_preserves_meta (fs fs2 : Fs) (t linkpath : List String)
    (hw : symlinkCreate fs t linkpath = .ok fs2) :
    ∀ q e, fsLookup fs q = some e → ∃ e2, fsLookup fs2 q = some e2 ∧ e2.emd = e.emd := by
  intro q e hq
  unfold symlinkCreate at hw
  cases hl : fsLookup fs linkpath with
  | some le => rw [hl] at hw; simp at hw
  | none =>
    rw [hl] at hw
    simp at hw
    by_cases hqp : linkpath = q
    · rw [← hqp] at hq; rw [hq] at hl; cases hl
    · refine ⟨e, ?_, rfl⟩
      rw [← hw, fsLookup_cons, if_neg hqp]
      exact hq

/-- **C9**.  With `copy_meta` false, `copyfile` performs no metadata
operation: every entry that existed before the call still exists after
it with identical metadata (timestamps, mode, flags, extended
attributes) — the content write at the destination keeps the
destination's metadata, and no other entry is touched at all. -/
theorem c9_no_meta_ops_without_copy_meta (fs : Fs) (f : File) (dstArg : List String)
    (fsym : Bool) (p : List String) (e : Entry)
    (hp : fsLookup fs p = some e) :
    ∃ e2, fsLookup (copyfile fs f dstArg false fsym).fs p = some e2 ∧ e2.emd = e.emd := by
  by_cases h1 : samefile fs f.source_path (effDst fs f.source_path dstArg) = true
  · refine ⟨e, ?_, rfl⟩; simp [copyfile, h1, hp]
  by_cases h2 : statFifo fs f.source_path = true
  · refine ⟨e, ?_, rfl⟩; simp [copyfile, h1, h2, hp]
  by_cases h3 : statFifo fs dstArg = true
  · refine ⟨e, ?_, rfl⟩; simp [copyfile, h1, h2, h3, hp]
  by_cases h4 : (!fsym && islink fs f.source_path) = true
  · cases hr : readlink fs f.source_path with
    | err e0 => refine ⟨e, ?_, rfl⟩; simp [copyfile, h1, h2, h3, h4, hr, hp]
    | ok t =>
      cases hs : symlinkCreate fs t dstArg with
      | err e0 => refine ⟨e, ?_, rfl⟩; simp [copyfile, h1, h2, h3, h4, hr, hs, hp]
      | ok fs2 =>
        obtain ⟨e2, he2, hmd⟩ := symlinkCreate_preserves_meta fs fs2 t dstArg hs p e hp
        refine ⟨e2, ?_, hmd⟩
        simp [copyfile, h1, h2, h3, h4, hr, hs, finishMeta, he2]
  · cases ho : openRead fs f.source_path with
    | err e0 => refine ⟨e, ?_, rfl⟩; simp [copyfile, h1, h2, h3, h4, ho, hp]
    | ok pr =>
      obtain ⟨rp, content⟩ := pr
      cases hw : writeAll fs dstArg (copyfileobj (16 * 1024) content) with
      | err e0 => refine ⟨e, ?_, rfl⟩; simp [copyfile, h1, h2, h3, h4, ho, hw, hp]
      | ok fs2 =>
        obtain ⟨e2, he2, hmd⟩ := writeAll_preserves_meta fs fs2 dstArg _ hw p e hp
        refine ⟨e2, ?_, hmd⟩
        simp [copyfile, h1, h2, h3, h4, ho, hw, finishMeta, he2]

/-- Witness for C9: after copying `a` over `b` with `copy_meta` false,
`b` still carries its old metadata. -/
theorem c9_witness :
    ∃ e2, fsLookup (copyfile fsTwoFiles ⟨["a"], none⟩ ["b"] false true).fs ["b"]
        = some e2 ∧ e2.emd = (Entry.file 2 [9, 9] defaultMeta).emd :=
  c9_no_meta_ops_without_copy_meta fsTwoFiles ⟨["a"], none⟩ ["b"] true ["b"]
    (.file 2 [9, 9] defaultMeta) (by decide)
